import Mathlib

/-!
Shallow embedding of src/xml_mod/xml_modifier.py.

The lxml library is abstracted as follows.  The engine never changes the
shape of an XML tree: it only overwrites text payloads.  Hence the
resolution of a given xpath string against a document is a constant of the
run, recorded in a `Query`: the list of targets returned by
`root.xpath(xpath)` together with the list of element indices returned by
the derived parent query `root.xpath(xpath + "/..")` that line 125 of the
source evaluates (in document order, as lxml returns node sets).
`root.xpath` renders element matches as live element references and
text-node or attribute matches as plain Python strings snapshotted at query
time; `render` reproduces exactly that.  The source's mapping key is named
`current_value`; the specification calls the same field `expected_value`.
-/

/-- Kind of node a mapping's xpath resolves to, tagged with the index of the
underlying element in the document's element store (for `textNode` and
`attrNode` this is the owning element). -/
inductive Target where
  | element (i : Nat)
  | textNode (i : Nat)
  | attrNode (i : Nat) (a : String)
  | cdata (i : Nat)
deriving DecidableEq, Repr

/-- Python-level value produced by `root.xpath`: an `etree._Element`
reference, a plain string (a text node or an attribute smart string, whose
value is captured when the query runs), or an `etree.CDATA` instance. -/
inductive XNode where
  | elemRef (i : Nat)
  | strVal (s : String)
  | cdataRef (i : Nat)
deriving DecidableEq, Repr

/-- One log line written by `parse_and_modify_xml`, one constructor per
`log_file.write` call in the source (lines 108, 114, 118, 120, 124, 129,
131 and 133). -/
inductive LogEntry where
  | modifyCdata (xpath cur new : String)
  | modifyElement (xpath cur new : String)
  | noChangeElement (xpath new : String)
  | mismatchElement (xpath : String) (found : Option String) (cur : String)
  | modifyTextNode (xpath cur new : String)
  | noChangeTextNode (xpath new : String)
  | mismatchTextNode (xpath found cur : String)
  | notFound (xpath : String)
deriving DecidableEq, Repr

/-- Structural resolution of a mapping's xpath string: `targets` is what
`root.xpath(xpath)` returns, `parents` is what `root.xpath(xpath + "/..")`
returns (element indices in document order). -/
structure Query where
  targets : List Target
  parents : List Nat
deriving DecidableEq, Repr

/-- One entry of the config's `mappings` list.  `new_value = none` models an
absent `new_value` key: line 99 of the source defaults it to
`current_value`.  `query` is the lxml resolution of `xpath` against the
(fixed) tree structure. -/
structure Mapping where
  xpath : String
  current_value : String
  new_value : Option String
  query : Query
deriving DecidableEq, Repr

/-- Mutable state of one parsed XML document: per-element text payloads
(`none` models `node.text is None`), per-element attribute lists, and the
payloads of CDATA sections.  The engine writes element texts and CDATA
payloads; it never writes attributes (no code path assigns to one). -/
structure Doc where
  elemText : List (Option String)
  attrs : List (List (String × String))
  cdataText : List String
deriving DecidableEq, Repr

/-- Write `node.text = v` on element `i`. -/
def setElemText (d : Doc) (i : Nat) (v : String) : Doc :=
  { d with elemText := d.elemText.set i (some v) }

/-- Write `node.text = etree.CDATA(v)` on CDATA section `i`. -/
def setCdata (d : Doc) (i : Nat) (v : String) : Doc :=
  { d with cdataText := d.cdataText.set i v }

/-- Value of one xpath match as `root.xpath` returns it: element matches are
live references, text-node and attribute matches are strings read from the
document at query time. -/
def render (d : Doc) : Target → XNode
  | .element i => .elemRef i
  | .textNode i => .strVal ((d.elemText.getD i none).getD "")
  | .attrNode i a => .strVal (((d.attrs.getD i []).lookup a).getD "")
  | .cdata i => .cdataRef i

/-- Body of the `for node in nodes` loop (source lines 105-131), one matched
node at a time.  State is (document, log written so far, `modified`).  The
result is `none` exactly when `root.xpath(xpath + "/..")[0]` raises an
uncaught IndexError (empty parent query result on line 125). -/
def applyNode (handle_cdata : Bool) (xpath cur new : String) (q : Query)
    (st : Doc × List LogEntry × Bool) (node : XNode) :
    Option (Doc × List LogEntry × Bool) :=
  let d := st.1
  let log := st.2.1
  let m := st.2.2
  match node with
  | .cdataRef i =>
    if handle_cdata then
      -- lines 107-110: no comparison with cur; unconditional write
      some (setCdata d i new, log ++ [.modifyCdata xpath cur new], true)
    else
      -- an etree.CDATA instance matches none of the isinstance branches
      some (d, log, m)
  | .elemRef i =>
    if d.elemText.getD i none = some cur then
      some (setElemText d i new, log ++ [.modifyElement xpath cur new], true)
    else if d.elemText.getD i none = some new then
      some (d, log ++ [.noChangeElement xpath new], m)
    else
      some (d, log ++ [.mismatchElement xpath (d.elemText.getD i none) cur], m)
  | .strVal s =>
    if s = cur then
      match q.parents with
      | [] => none
      | p :: _ =>
        some (setElemText d p new, log ++ [.modifyTextNode xpath cur new], true)
    else if s = new then
      some (d, log ++ [.noChangeTextNode xpath new], m)
    else
      some (d, log ++ [.mismatchTextNode xpath s cur], m)

/-- Body of the `for mapping in mappings` loop (source lines 96-133): read
the rule fields, run the xpath query (string results snapshot the current
document), then either log not-found or process every match in order. -/
def applyMapping (handle_cdata : Bool) (st : Doc × List LogEntry × Bool)
    (m : Mapping) : Option (Doc × List LogEntry × Bool) :=
  let cur := m.current_value
  let new := m.new_value.getD cur
  let nodes := m.query.targets.map (render st.1)
  if nodes = [] then
    some (st.1, st.2.1 ++ [.notFound m.xpath], st.2.2)
  else
    List.foldlM (applyNode handle_cdata m.xpath cur new m.query)
      (st.1, st.2.1, st.2.2) nodes

/-- Source lines 74-135: apply every mapping in order to the parsed tree,
starting with `modified = False` and an empty log, returning the final tree,
the log entries written, and the `modified` flag (or `none` on an uncaught
IndexError). -/
def parse_and_modify_xml (mappings : List Mapping) (handle_cdata : Bool)
    (d : Doc) : Option (Doc × List LogEntry × Bool) :=
  List.foldlM (applyMapping handle_cdata) (d, ([] : List LogEntry), false) mappings

/-- Run `parse_and_modify_xml` and, when it succeeds, run it again with the
same mappings over the document it produced (the second pass of an
idempotence experiment). -/
def twoPasses (mappings : List Mapping) (handle_cdata : Bool) (d : Doc) :
    Option (Doc × List LogEntry × Bool) :=
  match parse_and_modify_xml mappings handle_cdata d with
  | none => none
  | some (d1, _, _) => parse_and_modify_xml mappings handle_cdata d1

/-- Document component of an engine result. -/
def passDoc (r : Option (Doc × List LogEntry × Bool)) : Option Doc :=
  r.map (fun s => s.1)

/-- Log component of an engine result. -/
def passLog (r : Option (Doc × List LogEntry × Bool)) : Option (List LogEntry) :=
  r.map (fun s => s.2.1)

/-- Modified flag of an engine result. -/
def passModified (r : Option (Doc × List LogEntry × Bool)) : Option Bool :=
  r.map (fun s => s.2.2)

/-- True on the log entries that record a write (the Mutated outcomes). -/
def isMutationEntry : LogEntry → Bool
  | .modifyCdata _ _ _ => true
  | .modifyElement _ _ _ => true
  | .modifyTextNode _ _ _ => true
  | _ => false

/-- Value of the config's `schema_validation` key; `none` fields model absent
dictionary keys. -/
structure SchemaValidationCfg where
  enabled : Option Bool
  schema_path : Option String
deriving DecidableEq, Repr

/-- Parsed config.json.  `none` models an absent key.  The presentation-only
keys (`pretty_print`, `output_format.encoding`, `namespaces`) are omitted:
the first two only affect serialization formatting, never the modeled tree
content, and namespace resolution is already baked into each
`Mapping.query`. -/
structure Config where
  input_directory : Option String
  output_directory : Option String
  mappings : Option (List Mapping)
  handle_cdata : Option Bool
  schema_validation : Option SchemaValidationCfg
deriving DecidableEq, Repr

/-- Source lines 37-49: the function opens config.json, deserializes it and
returns the resulting dictionary unchanged.  It performs no validation of
any kind (file I/O and JSON parsing are the library; the function adds
nothing to the parsed value). -/
def load_config (parsed : Config) : Config := parsed

/-- One file of the input directory: its name and the outcome of
`etree.parse(file_path, XMLParser(recover=True))` — `none` models the
XMLSyntaxError the recovering parser still raises on an entirely
unparseable file. -/
structure FileEntry where
  name : String
  parsed : Option Doc
deriving DecidableEq, Repr

/-- One log line written by `process_xml_files` or
`validate_xml_with_schema` around the per-mapping entries. -/
inductive FLog where
  | processing (name : String)
  | entry (e : LogEntry)
  | schemaOk (schema_path : String)
  | schemaFailed
  | skipSave (name : String)
  | savedTo (name : String)
  | noChanges (name : String)
deriving DecidableEq, Repr

/-- Outcome for one processed file: the content of its .log file and the
content of the output file, `none` when no output file was written. -/
structure FileResult where
  name : String
  log : List FLog
  output : Option Doc
deriving DecidableEq, Repr

/-- Uncaught Python exception escaping `process_xml_files` (the source has
no try/except anywhere, so each of these aborts the whole run). -/
inductive RunError where
  | keyError (k : String)
  | parseError (name : String)
  | indexError
deriving DecidableEq, Repr

/-- Dictionary access `config[k]`: raises KeyError when the key is absent. -/
def keyed {α : Type} (v : Option α) (k : String) : Except RunError α :=
  match v with
  | some a => .ok a
  | none => .error (.keyError k)

/-- Embedding of the Python check `filename.endswith(".xml")` on source line
155: the last four characters of the name are ".xml" (compared through the
character list so that the check computes by structural recursion). -/
def endsWithDotXml (s : String) : Bool :=
  decide (s.data.reverse.take 4 = ['l', 'm', 'x', '.'])

/-- Source lines 51-72: validate the tree against the schema, log the
outcome, return whether it was valid.  The XSD check itself is the library,
abstracted as the predicate `valid`. -/
def validate_xml_with_schema (valid : Doc → Bool) (schema_path : String)
    (d : Doc) (log : List FLog) : Bool × List FLog :=
  if valid d then (true, log ++ [.schemaOk schema_path])
  else (false, log ++ [.schemaFailed])

/-- Per-file body of the loop in `process_xml_files` (source lines 156-181):
open the log, parse (an XMLSyntaxError propagates — nothing catches it),
modify, optionally validate (reading `schema_path` raises KeyError when
absent), then write the output file only when the document was modified and
validation did not fail. -/
def processFile (valid : Doc → Bool) (mappings : List Mapping)
    (handle_cdata : Bool) (sv : Option SchemaValidationCfg) (f : FileEntry) :
    Except RunError FileResult :=
  match f.parsed with
  | none => .error (.parseError f.name)
  | some d =>
    match parse_and_modify_xml mappings handle_cdata d with
    | none => .error .indexError
    | some (d1, entries, modified) =>
      let log1 := FLog.processing f.name :: entries.map FLog.entry
      if (sv.getD ⟨none, none⟩).enabled.getD false then
        match (sv.getD ⟨none, none⟩).schema_path with
        | none => .error (.keyError "schema_path")
        | some sp =>
          let r := validate_xml_with_schema valid sp d1 log1
          if r.1 then
            if modified then
              .ok ⟨f.name, r.2 ++ [.savedTo f.name], some d1⟩
            else
              .ok ⟨f.name, r.2 ++ [.noChanges f.name], none⟩
          else
            .ok ⟨f.name, r.2 ++ [.skipSave f.name], none⟩
      else
        if modified then
          .ok ⟨f.name, log1 ++ [.savedTo f.name], some d1⟩
        else
          .ok ⟨f.name, log1 ++ [.noChanges f.name], none⟩

/-- Source lines 137-181: read the required config keys (each a KeyError if
absent — the source never validates them up front), then process every
.xml file of the input directory in order.  Any uncaught exception aborts
the remainder of the batch. -/
def process_xml_files (valid : Doc → Bool) (config : Config)
    (files : List FileEntry) : Except RunError (List FileResult) := do
  let _input_dir ← keyed config.input_directory "input_directory"
  let _output_dir ← keyed config.output_directory "output_directory"
  let mappings ← keyed config.mappings "mappings"
  let handle_cdata := config.handle_cdata.getD false
  files.foldlM
    (fun acc f =>
      if endsWithDotXml f.name then do
        let r ← processFile valid mappings handle_cdata config.schema_validation f
        pure (acc ++ [r])
      else
        pure acc)
    []

/-! Concrete documents, mappings and configs used as witness inputs and
counterexample inputs below. -/

def dX : Doc := ⟨[some "X"], [], []⟩

def dY : Doc := ⟨[some "Y"], [], []⟩

def m_XY : Mapping := ⟨"/a/b", "X", some "Y", ⟨[.element 0], [0]⟩⟩

def m_YX : Mapping := ⟨"/a/b", "Y", some "X", ⟨[.element 0], [0]⟩⟩

def mEq : Mapping := ⟨"/a/b", "X", some "X", ⟨[.element 0], [0]⟩⟩

def dZ : Doc := ⟨[], [], ["Z"]⟩

def mCd : Mapping := ⟨"/a/b", "X", some "Y", ⟨[.cdata 0], []⟩⟩

def dAttr : Doc := ⟨[none], [[("status", "X")]], []⟩

def mAttr : Mapping := ⟨"/r/@status", "X", some "Y", ⟨[.attrNode 0 "status"], [0]⟩⟩

def dTxt : Doc := ⟨[some "X", some "X", some "X"], [], []⟩

def mTxt : Mapping :=
  ⟨"//b/text()", "X", some "Y", ⟨[.textNode 0, .textNode 1, .textNode 2], [0, 1, 2]⟩⟩

def mFan : Mapping :=
  ⟨"//b", "X", some "Y", ⟨[.element 0, .element 1, .element 2], [0, 1, 2]⟩⟩

def validAlways : Doc → Bool := fun _ => true

def neverValid : Doc → Bool := fun _ => false

def cfgBasic : Config := ⟨some "in", some "out", some [], none, none⟩

def cfgEnabledNoPath : Config :=
  ⟨some "in", some "out", some [], none, some ⟨some true, none⟩⟩

def cfgNoInput : Config := ⟨none, none, none, none, none⟩

def badFile : FileEntry := ⟨"bad.xml", none⟩

def goodFile : FileEntry := ⟨"good.xml", some ⟨[], [], []⟩⟩

/-! Helper lemmas about the element store. -/

lemma lt_length_of_getD_eq_some {l : List (Option String)} {i : Nat} {v : String}
    (h : l.getD i none = some v) : i < l.length := by
  by_contra hlt
  push_neg at hlt
  rw [List.getD_eq_getElem?_getD, List.getElem?_eq_none hlt] at h
  simp at h

lemma getD_setElemText_self (d : Doc) (i : Nat) (v : String)
    (h : i < d.elemText.length) :
    (setElemText d i v).elemText.getD i none = some v := by
  simp [setElemText, List.getD_eq_getElem?_getD, List.getElem?_set_eq h]

lemma getD_setElemText_ne (d : Doc) {i j : Nat} (v : String) (h : i ≠ j) :
    (setElemText d i v).elemText.getD j none = d.elemText.getD j none := by
  simp [setElemText, List.getD_eq_getElem?_getD, List.getElem?_set_ne h]

lemma setElemText_setElemText_same (d : Doc) (i : Nat) (v : String) :
    setElemText (setElemText d i v) i v = setElemText d i v := by
  simp [setElemText, List.set_set]

/-! Unfolding lemmas for one-mapping passes. -/

lemma parse_single (m : Mapping) (hc : Bool) (d : Doc) :
    parse_and_modify_xml [m] hc d = applyMapping hc (d, [], false) m := by
  unfold parse_and_modify_xml
  rw [List.foldlM_cons]
  cases h : applyMapping hc (d, [], false) m <;> simp [List.foldlM_nil, h]

lemma applyMapping_of_targets_eq_nil (hc : Bool) (st : Doc × List LogEntry × Bool)
    (m : Mapping) (h : m.query.targets = []) :
    applyMapping hc st m = some (st.1, st.2.1 ++ [.notFound m.xpath], st.2.2) := by
  unfold applyMapping
  rw [if_pos]
  simp [h]

lemma applyMapping_of_targets_ne_nil (hc : Bool) (st : Doc × List LogEntry × Bool)
    (m : Mapping) (h : m.query.targets ≠ []) :
    applyMapping hc st m =
      List.foldlM
        (applyNode hc m.xpath m.current_value (m.new_value.getD m.current_value)
          m.query)
        (st.1, st.2.1, st.2.2) (m.query.targets.map (render st.1)) := by
  unfold applyMapping
  rw [if_neg]
  simp [h]

/-- C1: for every rule whose expected value differs from its new value and
every matched element whose text equals the expected value at the moment it
is processed (in any state of any pass), the engine writes the new value to
that element's text, appends a Mutated log entry and reports the modified
flag true; in particular a one-rule pass over such an element returns
exactly the mutated document, that single log entry, and modified = true. -/
theorem C1_conditional_write (hc : Bool) (m : Mapping) (d : Doc)
    (log : List LogEntry) (b : Bool) (i : Nat)
    (hmatch : d.elemText.getD i none = some m.current_value)
    (hne : m.current_value ≠ m.new_value.getD m.current_value) :
    applyNode hc m.xpath m.current_value (m.new_value.getD m.current_value)
        m.query (d, log, b) (.elemRef i) =
      some (setElemText d i (m.new_value.getD m.current_value),
        log ++ [.modifyElement m.xpath m.current_value
          (m.new_value.getD m.current_value)], true) ∧
    (setElemText d i (m.new_value.getD m.current_value)).elemText.getD i none
      = some (m.new_value.getD m.current_value) ∧
    (m.query.targets = [.element i] →
      parse_and_modify_xml [m] hc d =
        some (setElemText d i (m.new_value.getD m.current_value),
          [.modifyElement m.xpath m.current_value
            (m.new_value.getD m.current_value)], true)) := by
  have hm : d.elemText[i]?.getD none = some m.current_value := by
    rw [← List.getD_eq_getElem?_getD]
    exact hmatch
  refine ⟨?_, ?_, ?_⟩
  · simp [applyNode, hm]
  · exact getD_setElemText_self d i _ (lt_length_of_getD_eq_some hmatch)
  · intro hT
    rw [parse_single, applyMapping_of_targets_ne_nil hc _ m (by rw [hT]; simp)]
    simp [hT, render, List.foldlM_cons, List.foldlM_nil, applyNode, hm]

theorem C1_witness :
    applyNode false m_XY.xpath m_XY.current_value
        (m_XY.new_value.getD m_XY.current_value) m_XY.query
        (dX, [], false) (.elemRef 0) =
      some (setElemText dX 0 (m_XY.new_value.getD m_XY.current_value),
        [] ++ [.modifyElement m_XY.xpath m_XY.current_value
          (m_XY.new_value.getD m_XY.current_value)], true) ∧
    (setElemText dX 0 (m_XY.new_value.getD m_XY.current_value)).elemText.getD 0 none
      = some (m_XY.new_value.getD m_XY.current_value) ∧
    (m_XY.query.targets = [.element 0] →
      parse_and_modify_xml [m_XY] false dX =
        some (setElemText dX 0 (m_XY.new_value.getD m_XY.current_value),
          [.modifyElement m_XY.xpath m_XY.current_value
            (m_XY.new_value.getD m_XY.current_value)], true)) :=
  C1_conditional_write false m_XY dX [] false 0 (by decide) (by decide)

/-- C2 counterexample: a rule with expected value and new value both "X" on
an element whose text is "X" takes the mutation branch: the pass returns a
Mutated log entry (no AlreadyCorrect entry) and modified = true, not an
unchanged modified flag. -/
theorem C2_counterexample :
    parse_and_modify_xml [mEq] false dX =
      some (dX, [.modifyElement "/a/b" "X" "X"], true) := by
  decide

/-- C2 amended: when the expected value equals the new value and the
element's text equals it, the engine still takes the mutation branch — it
rewrites the text with the same value, appends a Mutated log entry and sets
the modified flag true; the AlreadyCorrect outcome is reserved for a text
equal to the new value but different from the expected one. -/
theorem C2_amended_rewrite (hc : Bool) (xp v : String) (q : Query) (d : Doc)
    (log : List LogEntry) (b : Bool) (i : Nat)
    (hmatch : d.elemText.getD i none = some v) :
    applyNode hc xp v v q (d, log, b) (.elemRef i) =
      some (setElemText d i v, log ++ [.modifyElement xp v v], true) ∧
    (setElemText d i v).elemText.getD i none = some v := by
  have hm : d.elemText[i]?.getD none = some v := by
    rw [← List.getD_eq_getElem?_getD]
    exact hmatch
  refine ⟨by simp [applyNode, hm], ?_⟩
  exact getD_setElemText_self d i v (lt_length_of_getD_eq_some hmatch)

theorem C2_witness :
    applyNode false "/a/b" "X" "X" (⟨[.element 0], [0]⟩ : Query)
        (dX, [], false) (.elemRef 0) =
      some (setElemText dX 0 "X", [] ++ [.modifyElement "/a/b" "X" "X"], true) ∧
    (setElemText dX 0 "X").elemText.getD 0 none = some "X" :=
  C2_amended_rewrite false "/a/b" "X" ⟨[.element 0], [0]⟩ dX [] false 0 (by decide)

/-- C3 counterexample: with handle_cdata enabled, a CDATA payload "Z", and a
rule expecting "X" with new value "Y", the engine rewrites the payload to
"Y" anyway, sets the modified flag, and logs the old value as "X" although
the payload was "Z" — the CDATA section is not left unchanged when its
payload differs from the expected value. -/
theorem C3_cdata_unconditional :
    parse_and_modify_xml [mCd] true dZ =
      some (⟨[], [], ["Y"]⟩, [.modifyCdata "/a/b" "X" "Y"], true) := by
  decide

/-- C3 amended: when handle_cdata is enabled, a matched CDATA-section target
is always rewritten to the new value and the modified flag set, whatever
its current payload: the branch performs no comparison with the expected
value at all. -/
theorem C3_cdata_always_rewrites (xp cur new : String) (q : Query) (d : Doc)
    (log : List LogEntry) (b : Bool) (i : Nat) :
    applyNode true xp cur new q (d, log, b) (.cdataRef i) =
      some (setCdata d i new, log ++ [.modifyCdata xp cur new], true) := rfl

/-- C4: evaluation at the failing input.  For the rule selecting attribute
status (expected "X", new "Y") on an element whose status attribute is "X",
the engine logs a mutation but writes the owning element's text instead of
the attribute: the result keeps status = "X" and sets the element text to
"Y". -/
theorem C4_attribute_not_written :
    parse_and_modify_xml [mAttr] false dAttr =
      some (⟨[some "Y"], [[("status", "X")]], []⟩,
        [.modifyTextNode "/r/@status" "X" "Y"], true) := by
  decide

/-! Invariants of a one-mapping fold over element-only matches, used for the
idempotence analysis. -/

lemma length_setElemText (d : Doc) (i : Nat) (v : String) :
    (setElemText d i v).elemText.length = d.elemText.length := by
  simp [setElemText]

lemma fold_elems_result (hc : Bool) (xp cur new : String) (q : Query)
    (hne : cur ≠ new) :
    ∀ (ns : List XNode), (∀ n ∈ ns, ∃ i, n = XNode.elemRef i) →
    ∀ (d : Doc) (log : List LogEntry) (b : Bool),
    ∃ d' log' b',
      List.foldlM (applyNode hc xp cur new q) (d, log, b) ns
          = some (d', log', b') ∧
      (∀ j, d'.elemText.getD j none = d.elemText.getD j none ∨
            d'.elemText.getD j none = some new) ∧
      (∀ i, XNode.elemRef i ∈ ns → d'.elemText.getD i none ≠ some cur) := by
  intro ns
  induction ns with
  | nil =>
    intro _ d log b
    refine ⟨d, log, b, by simp [List.foldlM_nil], fun j => Or.inl rfl, ?_⟩
    intro i hi
    simp at hi
  | cons n ns ih =>
    intro hall d log b
    obtain ⟨i, rfl⟩ := hall n (List.mem_cons_self n ns)
    have hall' : ∀ x ∈ ns, ∃ j, x = XNode.elemRef j :=
      fun x hx => hall x (List.mem_cons_of_mem _ hx)
    by_cases hA : d.elemText.getD i none = some cur
    · have hm : d.elemText[i]?.getD none = some cur := by
        rw [← List.getD_eq_getElem?_getD]
        exact hA
      have hstep : applyNode hc xp cur new q (d, log, b) (.elemRef i)
          = some (setElemText d i new, log ++ [.modifyElement xp cur new], true) := by
        simp [applyNode, hm]
      obtain ⟨d', log', b', heq, hpres, hnc⟩ :=
        ih hall' (setElemText d i new) (log ++ [.modifyElement xp cur new]) true
      refine ⟨d', log', b', ?_, ?_, ?_⟩
      · rw [List.foldlM_cons, hstep]
        simpa using heq
      · intro j
        rcases hpres j with h | h
        · by_cases hj : i = j
          · subst hj
            right
            rw [h, getD_setElemText_self d i new (lt_length_of_getD_eq_some hA)]
          · left
            rw [h, getD_setElemText_ne d new hj]
        · right
          exact h
      · intro i' hi'
        rcases List.mem_cons.mp hi' with he | hmem
        · obtain rfl : i' = i := by injection he
          have hval : d'.elemText.getD i' none = some new := by
            rcases hpres i' with h | h
            · rw [h]
              exact getD_setElemText_self d i' new (lt_length_of_getD_eq_some hA)
            · exact h
          rw [hval]
          intro hcon
          exact hne ((Option.some.inj hcon).symm)
        · exact hnc i' hmem
    · have hm : ¬ d.elemText[i]?.getD none = some cur := by
        rw [← List.getD_eq_getElem?_getD]
        exact hA
      have hnewcur : ¬ new = cur := fun h => hne h.symm
      have hex : ∃ e, applyNode hc xp cur new q (d, log, b) (.elemRef i)
          = some (d, log ++ [e], b) := by
        by_cases hB : d.elemText[i]?.getD none = some new
        · exact ⟨.noChangeElement xp new, by simp [applyNode, hm, hB, hnewcur]⟩
        · exact ⟨.mismatchElement xp (d.elemText.getD i none) cur,
            by simp [applyNode, hm, hB, List.getD_eq_getElem?_getD]⟩
      obtain ⟨e, hstep⟩ := hex
      obtain ⟨d', log', b', heq, hpres, hnc⟩ := ih hall' d (log ++ [e]) b
      refine ⟨d', log', b', ?_, hpres, ?_⟩
      · rw [List.foldlM_cons, hstep]
        simpa using heq
      · intro i' hi'
        rcases List.mem_cons.mp hi' with he | hmem
        · obtain rfl : i' = i := by injection he
          rcases hpres i' with h | h
          · rw [h]
            exact hA
          · rw [h]
            intro hcon
            exact hne ((Option.some.inj hcon).symm)
        · exact hnc i' hmem

lemma fold_elems_noop (hc : Bool) (xp cur new : String) (q : Query) :
    ∀ (ns : List XNode), (∀ n ∈ ns, ∃ i, n = XNode.elemRef i) →
    ∀ (d : Doc) (log : List LogEntry) (b : Bool),
    (∀ i, XNode.elemRef i ∈ ns → d.elemText.getD i none ≠ some cur) →
    ∃ ex, List.foldlM (applyNode hc xp cur new q) (d, log, b) ns
            = some (d, log ++ ex, b) ∧
          ∀ e ∈ ex, isMutationEntry e = false := by
  intro ns
  induction ns with
  | nil =>
    intro _ d log b _
    exact ⟨[], by simp [List.foldlM_nil], by simp⟩
  | cons n ns ih =>
    intro hall d log b hsafe
    obtain ⟨i, rfl⟩ := hall n (List.mem_cons_self n ns)
    have hA : d.elemText.getD i none ≠ some cur :=
      hsafe i (List.mem_cons_self _ ns)
    have hm : ¬ d.elemText[i]?.getD none = some cur := by
      rw [← List.getD_eq_getElem?_getD]
      exact hA
    have hex : ∃ e, applyNode hc xp cur new q (d, log, b) (.elemRef i)
        = some (d, log ++ [e], b) ∧ isMutationEntry e = false := by
      by_cases hB : d.elemText[i]?.getD none = some new
      · have hnewcur : ¬ new = cur := fun h => hm (h ▸ hB)
        exact ⟨.noChangeElement xp new, by simp [applyNode, hm, hB, hnewcur], rfl⟩
      · exact ⟨.mismatchElement xp (d.elemText.getD i none) cur,
          by simp [applyNode, hm, hB, List.getD_eq_getElem?_getD], rfl⟩
    obtain ⟨e, hstep, hmut⟩ := hex
    have hall' : ∀ x ∈ ns, ∃ j, x = XNode.elemRef j :=
      fun x hx => hall x (List.mem_cons_of_mem _ hx)
    have hsafe' : ∀ i', XNode.elemRef i' ∈ ns →
        d.elemText.getD i' none ≠ some cur :=
      fun i' hi' => hsafe i' (List.mem_cons_of_mem _ hi')
    obtain ⟨ex, heq, hexmut⟩ := ih hall' d (log ++ [e]) b hsafe'
    refine ⟨e :: ex, ?_, ?_⟩
    · rw [List.foldlM_cons, hstep]
      simpa using heq
    · intro x hx
      rcases List.mem_cons.mp hx with rfl | hmem
      · exact hmut
      · exact hexmut x hmem

/-- C5 counterexample: two rules on the same element forming a swap cycle
(expected "X" to "Y", then expected "Y" to "X").  The first pass returns the
original document with modified = true, so the second pass over the first
pass's output again performs two mutations, logs two Mutated entries, and
sets the modified flag — not AlreadyCorrect outcomes with no modified flag. -/
theorem C5_counterexample :
    twoPasses [m_XY, m_YX] false dX =
      some (dX, [.modifyElement "/a/b" "X" "Y", .modifyElement "/a/b" "Y" "X"],
        true) := by
  decide

/-- C5 amended: for a single rule whose expected value differs from its new
value and whose xpath resolves only to element nodes, a second pass with the
same rule over the first pass's output performs no write (the document is
returned unchanged), reports modified = false, and logs no Mutated entry. -/
theorem C5_second_pass_noop (m : Mapping) (hc : Bool) (d d1 : Doc)
    (l1 : List LogEntry) (b1 : Bool)
    (hne : m.current_value ≠ m.new_value.getD m.current_value)
    (helems : ∀ t ∈ m.query.targets, ∃ i, t = Target.element i)
    (h1 : parse_and_modify_xml [m] hc d = some (d1, l1, b1)) :
    passDoc (parse_and_modify_xml [m] hc d1) = some d1 ∧
    passModified (parse_and_modify_xml [m] hc d1) = some false ∧
    ∀ l2, passLog (parse_and_modify_xml [m] hc d1) = some l2 →
      ∀ e ∈ l2, isMutationEntry e = false := by
  by_cases hT : m.query.targets = []
  · rw [parse_single, applyMapping_of_targets_eq_nil hc _ m hT] at h1
    simp only [Option.some.injEq, Prod.mk.injEq] at h1
    obtain ⟨rfl, -, -⟩ := h1
    rw [parse_single, applyMapping_of_targets_eq_nil hc _ m hT]
    refine ⟨by simp [passDoc], by simp [passModified], ?_⟩
    intro l2 hl2 e he
    simp only [passLog, Option.map_some', Option.some.injEq] at hl2
    subst hl2
    simp at he
    subst he
    rfl
  · have hnodes : ∀ n ∈ m.query.targets.map (render d), ∃ i, n = XNode.elemRef i := by
      intro n hn
      rw [List.mem_map] at hn
      obtain ⟨t, ht, rfl⟩ := hn
      obtain ⟨i, rfl⟩ := helems t ht
      exact ⟨i, rfl⟩
    rw [parse_single, applyMapping_of_targets_ne_nil hc _ m hT] at h1
    obtain ⟨d', log', b', heq, hpres, hnc⟩ :=
      fold_elems_result hc m.xpath m.current_value
        (m.new_value.getD m.current_value) m.query hne _ hnodes d [] false
    rw [heq] at h1
    simp only [Option.some.injEq, Prod.mk.injEq] at h1
    obtain ⟨rfl, -, -⟩ := h1
    have hmap2 : m.query.targets.map (render d') = m.query.targets.map (render d) := by
      apply List.map_congr_left
      intro t ht
      obtain ⟨i, rfl⟩ := helems t ht
      rfl
    have hnodes' : ∀ n ∈ m.query.targets.map (render d'), ∃ i, n = XNode.elemRef i := by
      rw [hmap2]
      exact hnodes
    have hsafe : ∀ i, XNode.elemRef i ∈ m.query.targets.map (render d') →
        d'.elemText.getD i none ≠ some m.current_value := by
      rw [hmap2]
      exact hnc
    obtain ⟨ex, heq2, hexmut⟩ :=
      fold_elems_noop hc m.xpath m.current_value
        (m.new_value.getD m.current_value) m.query _ hnodes' d' [] false hsafe
    rw [parse_single, applyMapping_of_targets_ne_nil hc _ m hT]
    refine ⟨?_, ?_, ?_⟩
    · rw [heq2]
      simp [passDoc]
    · rw [heq2]
      simp [passModified]
    · intro l2 hl2 e he
      rw [heq2] at hl2
      simp only [passLog, Option.map_some', Option.some.injEq, List.nil_append] at hl2
      subst hl2
      exact hexmut e he

theorem C5_witness :
    passDoc (parse_and_modify_xml [m_XY] false dY) = some dY ∧
    passModified (parse_and_modify_xml [m_XY] false dY) = some false ∧
    ∀ l2, passLog (parse_and_modify_xml [m_XY] false dY) = some l2 →
      ∀ e ∈ l2, isMutationEntry e = false :=
  C5_second_pass_noop m_XY false dX dY [.modifyElement "/a/b" "X" "Y"] true
    (by decide)
    (by
      intro t ht
      simp only [m_XY] at ht
      rw [List.mem_singleton] at ht
      exact ⟨0, ht⟩)
    (by decide)

lemma except_ok_bind {α β : Type} (a : α) (f : α → Except RunError β) :
    (Except.ok a >>= f) = f a := rfl

lemma except_error_bind {α β : Type} (e : RunError) (f : α → Except RunError β) :
    ((Except.error e : Except RunError α) >>= f) = Except.error e := rfl

lemma except_map_error {α β : Type} (g : α → β) (e : RunError) :
    (g <$> (Except.error e : Except RunError α)) = Except.error e := rfl

lemma foldlM_cons_some
    {f : (Doc × List LogEntry × Bool) → XNode → Option (Doc × List LogEntry × Bool)}
    {st st' : Doc × List LogEntry × Bool} {n : XNode} {ns : List XNode}
    (h : f st n = some st') :
    List.foldlM f st (n :: ns) = List.foldlM f st' ns := by
  rw [List.foldlM_cons, h]
  rfl

/-- C6: a rule whose xpath matches three distinct elements all holding the
expected value rewrites all three of them to the new value in one pass,
logs three Mutated lines (one per match), and finishes with modified =
true. -/
theorem C6_multi_match_fanout (m : Mapping) (i1 i2 i3 : Nat) (d : Doc) (hc : Bool)
    (hT : m.query.targets = [.element i1, .element i2, .element i3])
    (h12 : i1 ≠ i2) (h13 : i1 ≠ i3) (h23 : i2 ≠ i3)
    (ht1 : d.elemText.getD i1 none = some m.current_value)
    (ht2 : d.elemText.getD i2 none = some m.current_value)
    (ht3 : d.elemText.getD i3 none = some m.current_value)
    (hne : m.current_value ≠ m.new_value.getD m.current_value) :
    parse_and_modify_xml [m] hc d =
      some (setElemText (setElemText (setElemText d i1
          (m.new_value.getD m.current_value)) i2
          (m.new_value.getD m.current_value)) i3
          (m.new_value.getD m.current_value),
        [.modifyElement m.xpath m.current_value (m.new_value.getD m.current_value),
         .modifyElement m.xpath m.current_value (m.new_value.getD m.current_value),
         .modifyElement m.xpath m.current_value (m.new_value.getD m.current_value)],
        true) ∧
    (setElemText (setElemText (setElemText d i1
        (m.new_value.getD m.current_value)) i2
        (m.new_value.getD m.current_value)) i3
        (m.new_value.getD m.current_value)).elemText.getD i1 none
      = some (m.new_value.getD m.current_value) ∧
    (setElemText (setElemText (setElemText d i1
        (m.new_value.getD m.current_value)) i2
        (m.new_value.getD m.current_value)) i3
        (m.new_value.getD m.current_value)).elemText.getD i2 none
      = some (m.new_value.getD m.current_value) ∧
    (setElemText (setElemText (setElemText d i1
        (m.new_value.getD m.current_value)) i2
        (m.new_value.getD m.current_value)) i3
        (m.new_value.getD m.current_value)).elemText.getD i3 none
      = some (m.new_value.getD m.current_value) := by
  set nv := m.new_value.getD m.current_value with hnv
  have hlt1 := lt_length_of_getD_eq_some ht1
  have hlt2 := lt_length_of_getD_eq_some ht2
  have hlt3 := lt_length_of_getD_eq_some ht3
  have hm1 : d.elemText[i1]?.getD none = some m.current_value := by
    rw [← List.getD_eq_getElem?_getD]
    exact ht1
  have e1 : applyNode hc m.xpath m.current_value nv m.query (d, [], false)
      (.elemRef i1)
      = some (setElemText d i1 nv,
          [.modifyElement m.xpath m.current_value nv], true) := by
    simp [applyNode, hm1]
  have h2' : (setElemText d i1 nv).elemText.getD i2 none
      = some m.current_value := by
    rw [getD_setElemText_ne d nv h12]
    exact ht2
  have hm2 : (setElemText d i1 nv).elemText[i2]?.getD none
      = some m.current_value := by
    rw [← List.getD_eq_getElem?_getD]
    exact h2'
  have e2 : applyNode hc m.xpath m.current_value nv m.query
      (setElemText d i1 nv, [.modifyElement m.xpath m.current_value nv], true)
      (.elemRef i2)
      = some (setElemText (setElemText d i1 nv) i2 nv,
          [.modifyElement m.xpath m.current_value nv,
           .modifyElement m.xpath m.current_value nv], true) := by
    simp [applyNode, hm2]
  have h3' : (setElemText (setElemText d i1 nv) i2 nv).elemText.getD i3 none
      = some m.current_value := by
    rw [getD_setElemText_ne _ nv h23, getD_setElemText_ne d nv h13]
    exact ht3
  have hm3 : (setElemText (setElemText d i1 nv) i2 nv).elemText[i3]?.getD none
      = some m.current_value := by
    rw [← List.getD_eq_getElem?_getD]
    exact h3'
  have e3 : applyNode hc m.xpath m.current_value nv m.query
      (setElemText (setElemText d i1 nv) i2 nv,
        [.modifyElement m.xpath m.current_value nv,
         .modifyElement m.xpath m.current_value nv], true)
      (.elemRef i3)
      = some (setElemText (setElemText (setElemText d i1 nv) i2 nv) i3 nv,
          [.modifyElement m.xpath m.current_value nv,
           .modifyElement m.xpath m.current_value nv,
           .modifyElement m.xpath m.current_value nv], true) := by
    simp [applyNode, hm3]
  refine ⟨?_, ?_, ?_, ?_⟩
  · rw [parse_single, applyMapping_of_targets_ne_nil hc _ m (by rw [hT]; simp), hT]
    simp only [List.map, render]
    rw [foldlM_cons_some e1, foldlM_cons_some e2, foldlM_cons_some e3,
      List.foldlM_nil]
    rfl
  · rw [getD_setElemText_ne _ nv (Ne.symm h13), getD_setElemText_ne _ nv (Ne.symm h12)]
    exact getD_setElemText_self d i1 nv hlt1
  · rw [getD_setElemText_ne _ nv (Ne.symm h23)]
    exact getD_setElemText_self (setElemText d i1 nv) i2 nv
      (by rw [length_setElemText]; exact hlt2)
  · exact getD_setElemText_self (setElemText (setElemText d i1 nv) i2 nv) i3 nv
      (by rw [length_setElemText, length_setElemText]; exact hlt3)

theorem C6_witness :
    parse_and_modify_xml [mFan] false dTxt =
      some (setElemText (setElemText (setElemText dTxt 0 "Y") 1 "Y") 2 "Y",
        [.modifyElement "//b" "X" "Y", .modifyElement "//b" "X" "Y",
         .modifyElement "//b" "X" "Y"], true) ∧
    (setElemText (setElemText (setElemText dTxt 0 "Y") 1 "Y") 2 "Y").elemText.getD 0 none
      = some "Y" ∧
    (setElemText (setElemText (setElemText dTxt 0 "Y") 1 "Y") 2 "Y").elemText.getD 1 none
      = some "Y" ∧
    (setElemText (setElemText (setElemText dTxt 0 "Y") 1 "Y") 2 "Y").elemText.getD 2 none
      = some "Y" :=
  C6_multi_match_fanout mFan 0 1 2 dTxt false rfl (by decide) (by decide)
    (by decide) (by decide) (by decide) (by decide) (by decide)

lemma processFile_invalid (valid : Doc → Bool) (ms : List Mapping) (hcb : Bool)
    (sp : String) (f : FileEntry) (d d1 : Doc) (entries : List LogEntry) (b : Bool)
    (hp : f.parsed = some d)
    (hrun : parse_and_modify_xml ms hcb d = some (d1, entries, b))
    (hval : valid d1 = false) :
    processFile valid ms hcb (some ⟨some true, some sp⟩) f =
      .ok ⟨f.name, (FLog.processing f.name :: entries.map FLog.entry)
        ++ [.schemaFailed, .skipSave f.name], none⟩ := by
  simp [processFile, hp, hrun, validate_xml_with_schema, hval]

/-- C7: with schema validation enabled and a schema the (possibly mutated)
document fails, no output file is produced for that document (the result
records no output, so the original input is untouched and nothing partial
is written), while the document's log exists and records the validation
failure before the skip notice. -/
theorem C7_validation_gate (valid : Doc → Bool) (idir odir sp name : String)
    (ms : List Mapping) (hcb : Option Bool) (d d1 : Doc)
    (entries : List LogEntry) (b : Bool)
    (hxml : endsWithDotXml name = true)
    (hrun : parse_and_modify_xml ms (hcb.getD false) d = some (d1, entries, b))
    (hval : valid d1 = false) :
    process_xml_files valid
        ⟨some idir, some odir, some ms, hcb, some ⟨some true, some sp⟩⟩
        [⟨name, some d⟩] =
      .ok [⟨name, (FLog.processing name :: entries.map FLog.entry)
        ++ [.schemaFailed, .skipSave name], none⟩] := by
  have hpf := processFile_invalid valid ms (hcb.getD false) sp ⟨name, some d⟩
    d d1 entries b rfl hrun hval
  simp [process_xml_files, keyed, except_ok_bind, List.foldlM_cons,
    List.foldlM_nil, hxml, hpf, Except.map_ok]

theorem C7_witness :
    process_xml_files neverValid
        ⟨some "in", some "out", some [m_XY], none, some ⟨some true, some "s.xsd"⟩⟩
        [⟨"f.xml", some dX⟩] =
      .ok [⟨"f.xml", (FLog.processing "f.xml" ::
          [LogEntry.modifyElement "/a/b" "X" "Y"].map FLog.entry)
        ++ [.schemaFailed, .skipSave "f.xml"], none⟩] :=
  C7_validation_gate neverValid "in" "out" "s.xsd" "f.xml" [m_XY] none dX dY
    [.modifyElement "/a/b" "X" "Y"] true (by decide) (by decide) (by decide)

/-- C8 counterexample: a batch of two files whose first member is entirely
unparseable: the whole run aborts with an uncaught parse error — no result
list is produced at all, so no LoadError-style entry is recorded for the
bad file and the second file is never processed. -/
theorem C8_counterexample :
    process_xml_files validAlways cfgBasic [badFile, goodFile] =
      .error (.parseError "bad.xml") := rfl

/-- C8 amended: an input file the recovering parser still cannot parse at
all makes `etree.parse` raise; nothing catches the exception, so the whole
batch aborts at that file: no log entry records the failure and none of the
remaining files (however many) is processed. -/
theorem C8_unparseable_aborts (valid : Doc → Bool) (c : Config)
    (idir odir : String) (ms : List Mapping) (f : FileEntry)
    (rest : List FileEntry)
    (hin : c.input_directory = some idir)
    (hout : c.output_directory = some odir)
    (hms : c.mappings = some ms)
    (hxml : endsWithDotXml f.name = true)
    (hbad : f.parsed = none) :
    process_xml_files valid c (f :: rest) = .error (.parseError f.name) := by
  simp [process_xml_files, keyed, hin, hout, hms, except_ok_bind,
    except_error_bind, except_map_error, List.foldlM_cons, hxml,
    processFile, hbad]

theorem C8_witness :
    process_xml_files validAlways cfgBasic [badFile] =
      .error (.parseError "bad.xml") :=
  C8_unparseable_aborts validAlways cfgBasic "in" "out" [] badFile [] rfl rfl rfl
    (by decide) rfl

/-- C9 counterexample: a configuration with an empty rule list loads without
any ConfigError (load_config returns it unchanged) and the run then starts
and completes processing a file, contradicting the claim that an empty rule
list aborts the run before any file is touched. -/
theorem C9_counterexample :
    load_config cfgBasic = cfgBasic ∧
    process_xml_files validAlways cfgBasic [goodFile] =
      .ok [⟨"good.xml", [.processing "good.xml", .noChanges "good.xml"], none⟩] :=
  ⟨rfl, rfl⟩

/-- C9 amended: load_config performs no validation and never raises a
ConfigError; a missing required key surfaces only later, as a KeyError when
process_xml_files first accesses it; an empty rule list is accepted and
files are processed with no changes; schema_validation.enabled without
schema_path raises a KeyError during per-file processing (after parsing and
mutation), not before any file is touched. -/
theorem C9_no_config_checks :
    (∀ c : Config, load_config c = c) ∧
    (∀ (valid : Doc → Bool) (files : List FileEntry),
      process_xml_files valid cfgNoInput files =
        .error (.keyError "input_directory")) ∧
    process_xml_files validAlways cfgBasic [goodFile] =
      .ok [⟨"good.xml", [.processing "good.xml", .noChanges "good.xml"], none⟩] ∧
    process_xml_files validAlways cfgEnabledNoPath [goodFile] =
      .error (.keyError "schema_path") :=
  ⟨fun _ => rfl, fun _ _ => rfl, rfl, rfl⟩

/-- C10: when a rule's xpath selects bare text nodes and several matched
text nodes hold the expected value, every match fires and is logged
separately, but the write target of every one of them is element 0 of the
parent query result: only the first match's parent element is rewritten and
the parents of all the other matched text nodes keep their previous
text. -/
theorem C10_first_parent_only (m : Mapping) (i1 i2 i3 : Nat) (d : Doc) (hc : Bool)
    (hT : m.query.targets = [.textNode i1, .textNode i2, .textNode i3])
    (hP : m.query.parents = [i1, i2, i3])
    (h12 : i1 ≠ i2) (h13 : i1 ≠ i3)
    (ht1 : d.elemText.getD i1 none = some m.current_value)
    (ht2 : d.elemText.getD i2 none = some m.current_value)
    (ht3 : d.elemText.getD i3 none = some m.current_value)
    (hne : m.current_value ≠ m.new_value.getD m.current_value) :
    parse_and_modify_xml [m] hc d =
      some (setElemText d i1 (m.new_value.getD m.current_value),
        [.modifyTextNode m.xpath m.current_value (m.new_value.getD m.current_value),
         .modifyTextNode m.xpath m.current_value (m.new_value.getD m.current_value),
         .modifyTextNode m.xpath m.current_value (m.new_value.getD m.current_value)],
        true) ∧
    (setElemText d i1 (m.new_value.getD m.current_value)).elemText.getD i2 none
      = some m.current_value ∧
    (setElemText d i1 (m.new_value.getD m.current_value)).elemText.getD i3 none
      = some m.current_value := by
  set nv := m.new_value.getD m.current_value with hnv
  have hq1 : d.elemText[i1]?.getD none = some m.current_value := by
    rw [← List.getD_eq_getElem?_getD]
    exact ht1
  have hq2 : d.elemText[i2]?.getD none = some m.current_value := by
    rw [← List.getD_eq_getElem?_getD]
    exact ht2
  have hq3 : d.elemText[i3]?.getD none = some m.current_value := by
    rw [← List.getD_eq_getElem?_getD]
    exact ht3
  have hr1 : render d (Target.textNode i1) = XNode.strVal m.current_value := by
    simp [render, hq1]
  have hr2 : render d (Target.textNode i2) = XNode.strVal m.current_value := by
    simp [render, hq2]
  have hr3 : render d (Target.textNode i3) = XNode.strVal m.current_value := by
    simp [render, hq3]
  have e1 : applyNode hc m.xpath m.current_value nv m.query (d, [], false)
      (.strVal m.current_value)
      = some (setElemText d i1 nv,
          [.modifyTextNode m.xpath m.current_value nv], true) := by
    simp [applyNode, hP]
  have e2 : applyNode hc m.xpath m.current_value nv m.query
      (setElemText d i1 nv, [.modifyTextNode m.xpath m.current_value nv], true)
      (.strVal m.current_value)
      = some (setElemText d i1 nv,
          [.modifyTextNode m.xpath m.current_value nv,
           .modifyTextNode m.xpath m.current_value nv], true) := by
    simp [applyNode, hP, setElemText_setElemText_same]
  have e3 : applyNode hc m.xpath m.current_value nv m.query
      (setElemText d i1 nv,
        [.modifyTextNode m.xpath m.current_value nv,
         .modifyTextNode m.xpath m.current_value nv], true)
      (.strVal m.current_value)
      = some (setElemText d i1 nv,
          [.modifyTextNode m.xpath m.current_value nv,
           .modifyTextNode m.xpath m.current_value nv,
           .modifyTextNode m.xpath m.current_value nv], true) := by
    simp [applyNode, hP, setElemText_setElemText_same]
  refine ⟨?_, ?_, ?_⟩
  · rw [parse_single, applyMapping_of_targets_ne_nil hc _ m (by rw [hT]; simp), hT]
    simp only [List.map]
    rw [hr1, hr2, hr3, foldlM_cons_some e1, foldlM_cons_some e2,
      foldlM_cons_some e3, List.foldlM_nil]
    rfl
  · rw [getD_setElemText_ne d nv h12]
    exact ht2
  · rw [getD_setElemText_ne d nv h13]
    exact ht3

theorem C10_witness :
    parse_and_modify_xml [mTxt] false dTxt =
      some (setElemText dTxt 0 "Y",
        [.modifyTextNode "//b/text()" "X" "Y",
         .modifyTextNode "//b/text()" "X" "Y",
         .modifyTextNode "//b/text()" "X" "Y"], true) ∧
    (setElemText dTxt 0 "Y").elemText.getD 1 none = some "X" ∧
    (setElemText dTxt 0 "Y").elemText.getD 2 none = some "X" :=
  C10_first_parent_only mTxt 0 1 2 dTxt false rfl rfl (by decide) (by decide)
    (by decide) (by decide) (by decide) (by decide)
